import Mathlib

/-!
Shallow embedding of the job-orchestration and progress-broadcast core of
the playback-segment-analyzer repository.

Sources embedded:
- src/server/routes.ts          (HTTP handlers: cancel, retry, progress; WebSocket registry and broadcast)
- src/server/services/job-queue.ts (process-video handler, getWorkerStats)
- src/server/services/video-processor.ts (simulated Worker Processors)
- src/server/services/redis.ts  (InMemoryQueue fallback)
- src/server/storage.ts         (updateJob / getJob over the jobs table)
- src/unnamed/part_009          (client WebSocketProvider reconnect backoff)
- src/unnamed/part_011          (jobs table schema)

Conventions: timestamps are Nat clock values supplied as `now` parameters
(each `new Date()` in the source is one such parameter); opaque JSON blobs
(job `data`, worker results) are Strings; nullable columns are Options.
-/

namespace PSA

/-- Job status column: queued, processing, completed, failed, cancelled
(src/unnamed/part_011 line 118). -/
inductive JobStatus
  | queued
  | processing
  | completed
  | failed
  | cancelled
  deriving DecidableEq, Repr

/-- A row of the `jobs` table (src/unnamed/part_011 lines 114-124).
`progress` is an integer column with no database-level range check. -/
structure Job where
  id : String
  videoId : String
  jtype : String
  status : JobStatus
  progress : Int
  data : Option String
  error : Option String
  startedAt : Option Nat
  completedAt : Option Nat
  createdAt : Nat
  deriving DecidableEq, Repr

/-- A row of the `videos` table, restricted to the fields the orchestration
core touches (`status`; `updatedAt` is written by storage.updateVideo). -/
structure Video where
  id : String
  status : String
  updatedAt : Nat
  deriving DecidableEq, Repr

/-- A partial update object passed to storage.updateJob: an outer `some`
means the field is present in the update, the inner Option is the column's
nullable value (`none` = SQL NULL). -/
structure JobUpdate where
  status : Option JobStatus := none
  progress : Option Int := none
  data : Option (Option String) := none
  error : Option (Option String) := none
  startedAt : Option (Option Nat) := none
  completedAt : Option (Option Nat) := none
  deriving DecidableEq, Repr

/-- Apply a partial update to one row (drizzle `.set(updates)`). -/
def applyUpdate (j : Job) (u : JobUpdate) : Job :=
  { j with
    status := u.status.getD j.status
    progress := u.progress.getD j.progress
    data := u.data.getD j.data
    error := u.error.getD j.error
    startedAt := u.startedAt.getD j.startedAt
    completedAt := u.completedAt.getD j.completedAt }

/-- storage.getJob: select the row whose id matches (the joined video
summary is presentation-only and omitted). -/
def getJob (jobs : List Job) (id : String) : Option Job :=
  jobs.find? (fun j => j.id = id)

/-- storage.updateJob: `db.update(jobs).set(updates).where(eq(jobs.id, id)).returning()`.
Updates every row whose id matches (the id is a primary key, so at most
one) and returns the updated table together with the first updated row,
or `none` when no row matched. -/
def updateJob (jobs : List Job) (id : String) (u : JobUpdate) :
    List Job × Option Job :=
  (jobs.map (fun j => if j.id = id then applyUpdate j u else j),
   (getJob jobs id).map (fun j => applyUpdate j u))

/-- storage.updateVideo restricted to the fields the core writes: sets the
given fields plus `updatedAt = new Date()`. -/
def updateVideo (videos : List Video) (id : String) (status : String)
    (now : Nat) : List Video :=
  videos.map (fun v => if v.id = id then { v with status := status, updatedAt := now } else v)

/-- Message type tags pushed over the real-time channel. -/
inductive EventType
  | video_uploaded
  | job_progress
  | job_completed
  | job_failed
  | job_cancelled
  | job_retried
  deriving DecidableEq, Repr

/-- The `data` payload of a broadcast message. Route handlers broadcast the
updated job row directly; the job-queue process handler wraps a
freshly-read row (possibly absent) with the progress / result / error. -/
inductive EventData
  | job (j : Job)
  | jobProgress (j : Option Job) (progress : Int)
  | jobCompleted (j : Option Job) (result : String)
  | jobFailed (j : Option Job) (error : String)
  deriving DecidableEq, Repr

/-- One broadcast lifecycle event `\x7btype, data\x7d`. -/
structure Event where
  etype : EventType
  payload : EventData
  deriving DecidableEq, Repr

/-- Outcome of a route handler: HTTP 200 with the job row, or 404. -/
inductive RouteResult
  | ok (j : Job)
  | notFound
  deriving DecidableEq, Repr

/-- An entry appended to the work queue by `jobQueue.add('process-video', ...)`.
The retry route omits `filename` from the payload, hence the Option. -/
structure QueueAdd where
  processor : String
  jobId : String
  videoId : String
  filename : Option String
  jtype : String
  deriving DecidableEq, Repr

/-- POST /api/jobs/:id/cancel (src/server/routes.ts lines 244-262):
unconditionally `storage.updateJob(id, \x7bstatus: 'cancelled'\x7d)`; 404 when the
row does not exist, otherwise broadcast `job_cancelled` with the updated
row and return it. No check of the job's current status is performed. -/
def cancelHandler (jobs : List Job) (id : String) :
    List Job × RouteResult × List Event :=
  let r := updateJob jobs id { status := some .cancelled }
  match r.2 with
  | none => (r.1, .notFound, [])
  | some j => (r.1, .ok j, [⟨.job_cancelled, .job j⟩])

/-- The partial update the retry route applies. -/
def retryUpdate : JobUpdate :=
  { status := some .queued, progress := some 0, error := some none,
    startedAt := some none, completedAt := some none }

/-- POST /api/jobs/:id/retry (src/server/routes.ts lines 264-296):
unconditionally resets the row to queued with progress 0 and cleared
error/timestamps; 404 only when the row does not exist; otherwise re-adds
the job to the queue (payload without filename) and broadcasts
`job_retried`. No check that the job's status is `failed`. -/
def retryHandler (jobs : List Job) (id : String) :
    List Job × RouteResult × List Event × List QueueAdd :=
  let r := updateJob jobs id retryUpdate
  match r.2 with
  | none => (r.1, .notFound, [], [])
  | some j =>
    (r.1, .ok j, [⟨.job_retried, .job j⟩],
     [⟨"process-video", j.id, j.videoId, none, j.jtype⟩])

/-- Request body of POST /api/jobs/:id/progress; `status` and `error` are
optional (JS falsy values behave as absent). -/
structure ProgressBody where
  progress : Int
  status : Option JobStatus := none
  error : Option String := none
  deriving DecidableEq, Repr

/-- The updateData object built by the progress route (src/server/routes.ts
lines 346-360): always carries `progress` unchanged (no clamping); copies
`status`/`error` when supplied; sets `startedAt = new Date()` when
status is processing, `completedAt = new Date()` when status is
completed or failed. -/
def progressUpdate (b : ProgressBody) (now : Nat) : JobUpdate :=
  { status := b.status
    progress := some b.progress
    error := b.error.map some
    startedAt := if b.status = some .processing then some (some now) else none
    completedAt :=
      if b.status = some .completed ∨ b.status = some .failed
      then some (some now) else none }

/-- POST /api/jobs/:id/progress: applies the update to the row whatever its
current status; 404 only for an unknown id; otherwise broadcasts
`job_progress` with the updated row. -/
def progressHandler (jobs : List Job) (id : String) (b : ProgressBody)
    (now : Nat) : List Job × RouteResult × List Event :=
  let r := updateJob jobs id (progressUpdate b now)
  match r.2 with
  | none => (r.1, .notFound, [])
  | some j => (r.1, .ok j, [⟨.job_progress, .job j⟩])

/-! ## Simulated Worker Processors (src/server/services/video-processor.ts)

Each simulated processor loops `totalSteps` times and calls
`onProgress(Math.round(((i + 1) / totalSteps) * 100))` on step i. -/

/-- `Math.round(p / q)` for nonnegative operands (round half away from
zero, which for positives is half up). -/
def roundDiv (p q : Nat) : Nat :=
  (2 * p + q) / (2 * q)

/-- The progress values passed to `onProgress` by a simulated processor
with the given number of steps. -/
def simProgressSeq (totalSteps : Nat) : List Int :=
  (List.range totalSteps).map (fun i => (roundDiv ((i + 1) * 100) totalSteps : Int))

/-- VideoProcessor.detectScenes: 10 steps. -/
def sceneDetectionProgress : List Int := simProgressSeq 10

/-- VideoProcessor.generatePreviews: 8 steps. -/
def previewGenerationProgress : List Int := simProgressSeq 8

/-- VideoProcessor.extractThumbnails: 5 steps. -/
def thumbnailExtractionProgress : List Int := simProgressSeq 5

/-- The list is non-decreasing: each element is at most the next one. -/
def nonDecreasingB : List Int → Bool
  | [] => true
  | [_] => true
  | a :: b :: r => decide (a ≤ b) && nonDecreasingB (b :: r)

/-! ## The process-video handler (src/server/services/job-queue.ts lines 23-123) -/

/-- Server-side state threaded through the process handler: the jobs and
videos tables plus the events broadcast so far (routes.ts installs the
broadcast function with setBroadcast at registration, so it is non-null
in the running server; emission is modelled as appending to `events`). -/
structure ServerState where
  jobs : List Job
  videos : List Video
  events : List Event
  deriving Repr

/-- What one run of a Worker Processor did: the progress values it passed
to its callback (in order, before finishing or throwing), and its result:
`.ok` with the result blob, or `.error` with the recorded message
(`error.message`, or "Unknown error" for a non-Error throw; an unknown
job type yields `.error ("Unknown job type: " ++ type)`). -/
structure WorkerOutcome where
  progressCalls : List Int
  result : Except String String
  deriving Repr

/-- The progress callback the process handler hands the processor:
`storage.updateJob(jobId, \x7bprogress\x7d)`, then re-read the job and broadcast
`job_progress` with `\x7bjob, progress\x7d`. -/
def queueProgressCallback (jobId : String) (st : ServerState) (p : Int) :
    ServerState :=
  let jobs1 := (updateJob st.jobs jobId { progress := some p }).1
  { st with
    jobs := jobs1
    events := st.events ++ [⟨.job_progress, .jobProgress (getJob jobs1 jobId) p⟩] }

/-- First step of the process handler: `storage.updateJob(jobId,
\x7bstatus: "processing", startedAt: new Date(), progress: 0\x7d)`. -/
def markProcessing (st : ServerState) (jobId : String) (tStart : Nat) :
    ServerState :=
  { st with
    jobs := (updateJob st.jobs jobId
      { status := some .processing, startedAt := some (some tStart),
        progress := some 0 }).1 }

/-- The rest of the process handler after the processor finished: on
success, mark the job completed (progress 100, completedAt, result data),
broadcast `job_completed`, set the video completed, and return the result;
on a caught exception, mark the job failed (error message, completedAt),
broadcast `job_failed`, set the video failed, and re-throw to the queue
framework (modelled as the `.error` value of the returned Except, which
the queue layer's own catch consumes — it never reaches the submitter,
whose HTTP request completed at add time). -/
def finishProcessVideo (st : ServerState) (jobId videoId : String)
    (result : Except String String) (tEnd : Nat) :
    ServerState × Except String String :=
  match result with
  | .ok res =>
    let jobs1 := (updateJob st.jobs jobId
      { status := some .completed, progress := some 100,
        completedAt := some (some tEnd), data := some (some res) }).1
    ({ jobs := jobs1
       videos := updateVideo st.videos videoId "completed" tEnd
       events := st.events ++ [⟨.job_completed, .jobCompleted (getJob jobs1 jobId) res⟩] },
     .ok res)
  | .error msg =>
    let jobs1 := (updateJob st.jobs jobId
      { status := some .failed, error := some (some msg),
        completedAt := some (some tEnd) }).1
    ({ jobs := jobs1
       videos := updateVideo st.videos videoId "failed" tEnd
       events := st.events ++ [⟨.job_failed, .jobFailed (getJob jobs1 jobId) msg⟩] },
     .error msg)

/-- The whole `jobQueue.process("process-video", ...)` handler: mark the
job processing first, run the processor (its progress callbacks fold over
the state), then finish per the processor's result. -/
def processVideoHandler (st : ServerState) (jobId videoId : String)
    (outcome : WorkerOutcome) (tStart tEnd : Nat) :
    ServerState × Except String String :=
  let st1 := markProcessing st jobId tStart
  let st2 := outcome.progressCalls.foldl (queueProgressCallback jobId) st1
  finishProcessVideo st2 jobId videoId outcome.result tEnd

/-! ## getWorkerStats (src/server/services/job-queue.ts lines 140-170) -/

/-- The view of an active queue job used by getWorkerStats: its id and
the value its `progress()` accessor returns. -/
structure QueueJob where
  id : String
  progress : Int
  deriving DecidableEq, Repr

/-- The five awaited queue queries; `.error` models a rejected promise
(the first rejection sends control to the catch block, so result-wise any
rejection yields the fallback snapshot). -/
structure QueueSnapshotQueries where
  waiting : Except String Nat
  active : Except String Nat
  completed : Except String Nat
  failed : Except String Nat
  activeJobs : Except String (List QueueJob)
  deriving Repr

/-- An entry of the `workers` array in the stats snapshot. -/
structure WorkerEntry where
  id : String
  status : String
  jobId : String
  progress : Int
  deriving DecidableEq, Repr

/-- The stats snapshot returned by getWorkerStats. -/
structure WorkerStats where
  waiting : Nat
  active : Nat
  completed : Nat
  failed : Nat
  workers : List WorkerEntry
  deriving DecidableEq, Repr

/-- The catch-block fallback snapshot. -/
def zeroWorkerStats : WorkerStats :=
  ⟨0, 0, 0, 0, []⟩

/-- `activeJobs.map((job, index) => (\x7bid: worker-(index+1), status:
"processing", jobId: job.id, progress: job.progress()\x7d))`. -/
def workersOf : Nat → List QueueJob → List WorkerEntry
  | _, [] => []
  | i, j :: r =>
    ⟨"worker-" ++ toString (i + 1), "processing", j.id, j.progress⟩ :: workersOf (i + 1) r

/-- getWorkerStats: the try block returns the four counts plus one worker
entry per active job; any query failure lands in the catch block, which
returns the zeroed snapshot. -/
def getWorkerStats (q : QueueSnapshotQueries) : WorkerStats :=
  match q.waiting, q.active, q.completed, q.failed, q.activeJobs with
  | .ok w, .ok a, .ok c, .ok f, .ok js => ⟨w, a, c, f, workersOf 0 js⟩
  | _, _, _, _, _ => zeroWorkerStats

/-! ## InMemoryQueue (src/server/services/redis.ts, fallback implementation) -/

/-- Status of a queue-level job in the in-memory fallback. -/
inductive MemStatus
  | waiting
  | processing
  | completed
  | failed
  deriving DecidableEq, Repr

/-- An InMemoryQueue job record; `outcome` is what the registered
processor will produce for it when run (`.error` = the processor throws,
with the message that processJob's catch records; a missing processor is
the `.error ("No processor found for: " ++ name)` case recorded without
running anything). Jobs are listed in insertion (Map) order. -/
structure MemJob where
  id : String
  outcome : Except String String
  status : MemStatus
  progress : Nat
  result : Option String
  error : Option String
  deriving Repr

/-- processJob's effect on the record once the processor returns or
throws: completed with progress 100 and the result, or failed with the
caught message. -/
def finishMemJob (j : MemJob) : MemJob :=
  match j.outcome with
  | .ok r => { j with status := .completed, progress := 100, result := some r }
  | .error e => { j with status := .failed, error := some e }

/-- `Array.from(this.jobs.values()).find(j => j.status === 'waiting')`:
the earliest-added waiting job. -/
def findWaiting (js : List MemJob) : Option MemJob :=
  js.find? (fun j => decide (j.status = .waiting))

/-- `job.status = 'processing'` at the start of processJob. -/
def setProcessing (js : List MemJob) (id : String) : List MemJob :=
  js.map (fun j => if j.id = id then { j with status := .processing } else j)

/-- Apply finishMemJob to the record with the given id. -/
def finishAt (js : List MemJob) (id : String) : List MemJob :=
  js.map (fun j => if j.id = id then finishMemJob j else j)

/-- Phase of the startProcessing loop: between iterations, or awaiting
the processor of one job. -/
inductive QPhase
  | idle
  | running (id : String)
  deriving DecidableEq, Repr

/-- Small-step view of the InMemoryQueue loop state. -/
structure MemQueueState where
  jobs : List MemJob
  phase : QPhase
  deriving Repr

/-- One step of the loop: from idle, pick the earliest waiting job and
mark it processing (start of processJob); from running, finish that job
(processor returned or threw) and go back to idle. When no waiting job
remains, the loop exits (state unchanged). -/
def memStep (s : MemQueueState) : MemQueueState :=
  match s.phase with
  | .idle =>
    match findWaiting s.jobs with
    | none => s
    | some j => ⟨setProcessing s.jobs j.id, .running j.id⟩
  | .running id => ⟨finishAt s.jobs id, .idle⟩

/-- Loop invariant: outside processJob no job is processing; while
processJob awaits job `id`, only records with that id are processing. -/
def memWellFormed (s : MemQueueState) : Prop :=
  match s.phase with
  | .idle => ∀ j ∈ s.jobs, j.status ≠ .processing
  | .running id => ∀ j ∈ s.jobs, j.status = .processing → j.id = id

/-- Number of records currently in the processing status. -/
def processingCount (js : List MemJob) : Nat :=
  (js.filter (fun j => decide (j.status = .processing))).length

/-- Big-step view of startProcessing: repeatedly pick the earliest
waiting job, run it to completion, and continue; returns the final job
list and the ids in the order they were processed. Fuel bounds the number
of iterations (each iteration settles one waiting job). -/
def runLoop : Nat → List MemJob → List MemJob × List String
  | 0, js => (js, [])
  | fuel + 1, js =>
    match findWaiting js with
    | none => (js, [])
    | some j =>
      let js1 := finishAt (setProcessing js j.id) j.id
      let r := runLoop fuel js1
      (r.1, j.id :: r.2)

/-! ## WebSocket registry and broadcast (src/server/routes.ts lines 23-53) -/

/-- ws readyState OPEN. -/
def WS_OPEN : Nat := 1

/-- One registered WebSocket client (id assigned on connection). -/
structure WSClient where
  id : String
  readyState : Nat
  deriving DecidableEq, Repr

/-- The connection handler adds the new client to the set. -/
def connectClient (clients : List WSClient) (c : WSClient) : List WSClient :=
  clients ++ [c]

/-- The close / error handlers delete the client from the set. -/
def removeClient (clients : List WSClient) (cid : String) : List WSClient :=
  clients.filter (fun c => c.id ≠ cid)

/-- Status column rendering for serialization. -/
def statusName : JobStatus → String
  | .queued => "queued"
  | .processing => "processing"
  | .completed => "completed"
  | .failed => "failed"
  | .cancelled => "cancelled"

/-- Event type tag rendering. -/
def etypeName : EventType → String
  | .video_uploaded => "video_uploaded"
  | .job_progress => "job_progress"
  | .job_completed => "job_completed"
  | .job_failed => "job_failed"
  | .job_cancelled => "job_cancelled"
  | .job_retried => "job_retried"

/-- JSON rendering of a job row (the fields the claims inspect). -/
def serializeJob (j : Job) : String :=
  "\x7b\"id\":\"" ++ j.id ++ "\",\"status\":\"" ++ statusName j.status ++
    "\",\"progress\":" ++ toString j.progress ++ "\x7d"

/-- JSON rendering of an event payload. -/
def serializePayload : EventData → String
  | .job j => serializeJob j
  | .jobProgress j p =>
    "\x7b\"job\":" ++ (j.map serializeJob).getD "null" ++
      ",\"progress\":" ++ toString p ++ "\x7d"
  | .jobCompleted j r =>
    "\x7b\"job\":" ++ (j.map serializeJob).getD "null" ++
      ",\"result\":\"" ++ r ++ "\"\x7d"
  | .jobFailed j e =>
    "\x7b\"job\":" ++ (j.map serializeJob).getD "null" ++
      ",\"error\":\"" ++ e ++ "\"\x7d"

/-- `JSON.stringify(data)`, computed once per broadcast call. -/
def serializeEvent (e : Event) : String :=
  "\x7b\"type\":\"" ++ etypeName e.etype ++ "\",\"data\":" ++
    serializePayload e.payload ++ "\x7d"

/-- The broadcast loop: `clients.forEach(c => if (c.readyState === OPEN)
c.send(message))`. Returns the (client id, message) sends performed. -/
def broadcastSends (clients : List WSClient) (message : String) :
    List (String × String) :=
  clients.filterMap (fun c =>
    if c.readyState = WS_OPEN then some (c.id, message) else none)

/-- `broadcast(data)`: serialize once, then send to every open client. -/
def broadcast (clients : List WSClient) (e : Event) : List (String × String) :=
  broadcastSends clients (serializeEvent e)

/-! ## Client reconnect backoff (src/unnamed/part_009, WebSocketProvider) -/

/-- The delay scheduled before a reconnect attempt:
`Math.min(1000 * Math.pow(2, reconnectAttemptsRef.current), 30000)`. -/
def reconnectDelay (attempts : Nat) : Nat :=
  min (1000 * 2 ^ attempts) 30000

/-- Socket lifecycle events seen by the provider. -/
inductive WSEvent
  | onopen
  | onclose
  deriving DecidableEq, Repr

/-- Provider state: the attempt counter and the delays scheduled so far
(in order). -/
structure WSClientState where
  attempts : Nat
  scheduled : List Nat
  deriving DecidableEq, Repr

/-- onopen resets the attempt counter to 0; onclose schedules a reconnect
after `reconnectDelay attempts` and then increments the counter. -/
def wsStep (s : WSClientState) : WSEvent → WSClientState
  | .onopen => { s with attempts := 0 }
  | .onclose =>
    { attempts := s.attempts + 1
      scheduled := s.scheduled ++ [reconnectDelay s.attempts] }

/-- Run the provider over a sequence of socket events. -/
def wsRun (s : WSClientState) (evs : List WSEvent) : WSClientState :=
  evs.foldl wsStep s

/-! ## Storage lemmas -/

theorem applyUpdate_preserves_id (j : Job) (u : JobUpdate) :
    (applyUpdate j u).id = j.id :=
  rfl

theorem getJob_some_id {jobs : List Job} {id : String} {j : Job}
    (h : getJob jobs id = some j) : j.id = id := by
  have := List.find?_some h
  simpa using this

theorem getJob_updateJob (jobs : List Job) (id : String) (u : JobUpdate) :
    getJob (updateJob jobs id u).1 id = (getJob jobs id).map (applyUpdate · u) := by
  induction jobs with
  | nil => rfl
  | cons a l ih =>
    by_cases h : a.id = id
    · simp [getJob, updateJob, List.find?_cons, h, applyUpdate_preserves_id]
    · simp only [getJob, updateJob, List.map_cons] at *
      rw [List.find?_cons, List.find?_cons]
      simp only [h, if_neg h, applyUpdate_preserves_id]
      simpa [h] using ih

theorem updateJob_of_none {jobs : List Job} {id : String} (u : JobUpdate)
    (h : getJob jobs id = none) : updateJob jobs id u = (jobs, none) := by
  have hall : ∀ j ∈ jobs, ¬(j.id = id) := by
    intro j hj
    have := List.find?_eq_none.mp h j hj
    simpa using this
  unfold updateJob
  rw [h]
  refine Prod.ext ?_ rfl
  simp only
  exact List.map_congr_left (fun j hj => by simp [hall j hj]) |>.trans (List.map_id jobs)

/-! ## Claim C1: cancel -/

/-- Claim C1 counterexample: a job with terminal status `completed` is NOT
rejected by the cancel route — the handler accepts it (HTTP 200), persists
status `cancelled`, and emits a `job_cancelled` event, because the handler
performs no status check before `storage.updateJob(id, \x7bstatus:
'cancelled'\x7d)`. -/
theorem cancel_terminal_not_rejected :
    (cancelHandler
        [⟨"j1", "v1", "scene_detection", .completed, 100, none, none, some 5, some 9, 1⟩]
        "j1").2.1 =
      .ok ⟨"j1", "v1", "scene_detection", .cancelled, 100, none, none, some 5, some 9, 1⟩ ∧
    getJob (cancelHandler
        [⟨"j1", "v1", "scene_detection", .completed, 100, none, none, some 5, some 9, 1⟩]
        "j1").1 "j1" =
      some ⟨"j1", "v1", "scene_detection", .cancelled, 100, none, none, some 5, some 9, 1⟩ ∧
    (cancelHandler
        [⟨"j1", "v1", "scene_detection", .completed, 100, none, none, some 5, some 9, 1⟩]
        "j1").2.2 =
      [⟨.job_cancelled,
        .job ⟨"j1", "v1", "scene_detection", .cancelled, 100, none, none, some 5, some 9, 1⟩⟩] := by
  refine ⟨rfl, rfl, rfl⟩

/-- Claim C1 (amended): the cancel route rejects (404, no state change, no
event) exactly the unknown job ids; for every existing job — whatever its
status, including completed and failed — it transitions the status to
cancelled, persists it, and emits a `job_cancelled` event carrying the
updated row. -/
theorem cancel_spec (jobs : List Job) (id : String) :
    (getJob jobs id = none →
      cancelHandler jobs id = (jobs, .notFound, [])) ∧
    (∀ j, getJob jobs id = some j →
      cancelHandler jobs id =
        ((updateJob jobs id { status := some .cancelled }).1,
         .ok { j with status := .cancelled },
         [⟨.job_cancelled, .job { j with status := .cancelled }⟩]) ∧
      getJob (cancelHandler jobs id).1 id = some { j with status := .cancelled }) := by
  constructor
  · intro h
    simp [cancelHandler, updateJob_of_none _ h]
  · intro j h
    have h2 : (updateJob jobs id { status := some JobStatus.cancelled }).2
        = some { j with status := .cancelled } := by
      simp only [updateJob, h, Option.map_some]
      rfl
    refine ⟨?_, ?_⟩
    · simp [cancelHandler, h2]
    · simp only [cancelHandler, h2, getJob_updateJob, h, Option.map_some]
      rfl

/-- Claim C1 witness: instantiation of the amended theorem on a concrete
queued job. -/
theorem cancel_spec_witness :
    getJob [(⟨"j2", "v2", "scene_detection", .queued, 0, none, none, none, none, 1⟩ : Job)] "j2"
      = some ⟨"j2", "v2", "scene_detection", .queued, 0, none, none, none, none, 1⟩ ∧
    (cancelHandler
        [⟨"j2", "v2", "scene_detection", .queued, 0, none, none, none, none, 1⟩] "j2").2.1 =
      .ok ⟨"j2", "v2", "scene_detection", .cancelled, 0, none, none, none, none, 1⟩ :=
  ⟨by decide,
   ((cancel_spec
      [⟨"j2", "v2", "scene_detection", .queued, 0, none, none, none, none, 1⟩] "j2").2
      ⟨"j2", "v2", "scene_detection", .queued, 0, none, none, none, none, 1⟩
      (by decide)).1 ▸ rfl⟩

/-! ## Claim C2: reportProgress after a terminal status -/

/-- Claim C2 counterexample: a progress report for a job already in the
terminal status `completed` is not discarded — the handler persists the
supplied progress (50 replaces 100) and emits a `job_progress` event,
because it never reads the job's current status. -/
theorem progress_after_terminal_not_noop :
    (getJob (progressHandler
        [⟨"j1", "v1", "scene_detection", .completed, 100, none, none, some 5, some 9, 1⟩]
        "j1" ⟨50, none, none⟩ 7).1 "j1").map Job.progress = some 50 ∧
    (progressHandler
        [⟨"j1", "v1", "scene_detection", .completed, 100, none, none, some 5, some 9, 1⟩]
        "j1" ⟨50, none, none⟩ 7).2.2 ≠ [] := by
  refine ⟨rfl, by decide⟩

/-- Claim C2 (amended): the progress route is a no-op (404, no state
change, no event) exactly for unknown job ids; for every existing job —
including one in a terminal status — it persists the update built from the
body (in particular the supplied progress value) and emits one
`job_progress` event with the updated row. -/
theorem report_progress_spec (jobs : List Job) (id : String)
    (b : ProgressBody) (now : Nat) :
    (getJob jobs id = none →
      progressHandler jobs id b now = (jobs, .notFound, [])) ∧
    (∀ j, getJob jobs id = some j →
      progressHandler jobs id b now =
        ((updateJob jobs id (progressUpdate b now)).1,
         .ok (applyUpdate j (progressUpdate b now)),
         [⟨.job_progress, .job (applyUpdate j (progressUpdate b now))⟩]) ∧
      getJob (progressHandler jobs id b now).1 id
        = some (applyUpdate j (progressUpdate b now)) ∧
      (applyUpdate j (progressUpdate b now)).progress = b.progress) := by
  constructor
  · intro h
    simp [progressHandler, updateJob_of_none _ h]
  · intro j h
    have h2 : (updateJob jobs id (progressUpdate b now)).2
        = some (applyUpdate j (progressUpdate b now)) := by
      simp [updateJob, h]
    refine ⟨?_, ?_, ?_⟩
    · simp [progressHandler, h2]
    · simp [progressHandler, h2, getJob_updateJob, h]
    · simp [applyUpdate, progressUpdate]

/-- Claim C2 witness: instantiation of the amended theorem on a concrete
processing job. -/
theorem report_progress_spec_witness :
    getJob [(⟨"j3", "v3", "scene_detection", .processing, 10, none, none, some 2, none, 1⟩ : Job)] "j3"
      = some ⟨"j3", "v3", "scene_detection", .processing, 10, none, none, some 2, none, 1⟩ ∧
    (applyUpdate
        ⟨"j3", "v3", "scene_detection", .processing, 10, none, none, some 2, none, 1⟩
        (progressUpdate ⟨40, none, none⟩ 6)).progress = 40 :=
  ⟨by decide,
   ((report_progress_spec
      [⟨"j3", "v3", "scene_detection", .processing, 10, none, none, some 2, none, 1⟩]
      "j3" ⟨40, none, none⟩ 6).2
      ⟨"j3", "v3", "scene_detection", .processing, 10, none, none, some 2, none, 1⟩
      (by decide)).2.2⟩

/-! ## Claim C3: retry -/

/-- Claim C3 counterexample: retry on a job whose status is `completed`
(not `failed`) is accepted, not rejected — the handler resets the row to
queued, re-schedules it, and emits `job_retried`, because it never checks
the current status. -/
theorem retry_non_failed_accepted :
    (retryHandler
        [⟨"j1", "v1", "scene_detection", .completed, 100, some "d", none, some 5, some 9, 1⟩]
        "j1").2.1 =
      .ok ⟨"j1", "v1", "scene_detection", .queued, 0, some "d", none, none, none, 1⟩ ∧
    (retryHandler
        [⟨"j1", "v1", "scene_detection", .completed, 100, some "d", none, some 5, some 9, 1⟩]
        "j1").2.2.2 =
      [⟨"process-video", "j1", "v1", none, "scene_detection"⟩] := by
  refine ⟨rfl, rfl⟩

/-- Claim C3 (amended): retry is rejected (404, no state change, no event,
no re-scheduling) exactly for unknown job ids; for every existing job —
whatever its status, not only `failed` — it sets progress 0, clears error,
startedAt and completedAt, transitions the status to queued, persists,
re-adds the job to the work queue, and emits a `job_retried` event. -/
theorem retry_spec (jobs : List Job) (id : String) :
    (getJob jobs id = none →
      retryHandler jobs id = (jobs, .notFound, [], [])) ∧
    (∀ j, getJob jobs id = some j →
      retryHandler jobs id =
        ((updateJob jobs id retryUpdate).1,
         .ok { j with status := .queued, progress := 0, error := none,
                      startedAt := none, completedAt := none },
         [⟨.job_retried, .job { j with status := .queued, progress := 0, error := none,
                                       startedAt := none, completedAt := none }⟩],
         [⟨"process-video", j.id, j.videoId, none, j.jtype⟩]) ∧
      getJob (retryHandler jobs id).1 id
        = some { j with status := .queued, progress := 0, error := none,
                        startedAt := none, completedAt := none }) := by
  constructor
  · intro h
    simp [retryHandler, updateJob_of_none _ h]
  · intro j h
    have h2 : (updateJob jobs id retryUpdate).2
        = some { j with status := .queued, progress := 0, error := none,
                        startedAt := none, completedAt := none } := by
      simp only [updateJob, h, Option.map_some]
      rfl
    refine ⟨?_, ?_⟩
    · simp [retryHandler, h2]
    · simp only [retryHandler, h2, getJob_updateJob, h, Option.map_some]
      rfl

/-- Claim C3 witness: instantiation of the amended theorem on a concrete
failed job. -/
theorem retry_spec_witness :
    getJob [(⟨"j4", "v4", "scene_detection", .failed, 30, none, some "boom", some 2, some 3, 1⟩ : Job)] "j4"
      = some ⟨"j4", "v4", "scene_detection", .failed, 30, none, some "boom", some 2, some 3, 1⟩ ∧
    getJob (retryHandler
        [⟨"j4", "v4", "scene_detection", .failed, 30, none, some "boom", some 2, some 3, 1⟩]
        "j4").1 "j4"
      = some ⟨"j4", "v4", "scene_detection", .queued, 0, none, none, none, none, 1⟩ :=
  ⟨by decide,
   ((retry_spec
      [⟨"j4", "v4", "scene_detection", .failed, 30, none, some "boom", some 2, some 3, 1⟩]
      "j4").2
      ⟨"j4", "v4", "scene_detection", .failed, 30, none, some "boom", some 2, some 3, 1⟩
      (by decide)).2⟩

/-! ## Process-handler lemmas -/

theorem getJob_queueProgressCallback (jobId : String) (st : ServerState) (p : Int) :
    getJob (queueProgressCallback jobId st p).jobs jobId
      = (getJob st.jobs jobId).map (applyUpdate · { progress := some p }) := by
  simp [queueProgressCallback, getJob_updateJob]

theorem getJob_foldl_callbacks (jobId : String) (calls : List Int)
    (st : ServerState) (h : (getJob st.jobs jobId).isSome) :
    (getJob ((calls.foldl (queueProgressCallback jobId) st).jobs) jobId).isSome := by
  induction calls generalizing st with
  | nil => exact h
  | cons p rest ih =>
    apply ih
    rw [getJob_queueProgressCallback]
    simpa using h

theorem updateVideo_status {vs : List Video} {id s : String} {now : Nat} :
    ∀ v ∈ updateVideo vs id s now, v.id = id → v.status = s := by
  intro v hv hid
  rcases List.mem_map.mp hv with ⟨w, _, rfl⟩
  by_cases h : w.id = id
  · simp [h]
  · rw [if_neg h] at hid
    exact absurd hid h

/-! ## Claim C4: worker failure is caught -/

/-- Claim C4: when the Worker Processor finishes with an exception
(recorded message `msg`), the process handler's catch branch persists
status failed with the message and completedAt, broadcasts a `job_failed`
event carrying the re-read row, updates the owning video's status to
failed, and terminates normally, yielding the rethrown error as a value
that only the queue framework consumes (the submitter's HTTP request
already completed at add time, so nothing reaches it and nothing
crashes). -/
theorem worker_failure_spec (st : ServerState) (jobId videoId : String)
    (outcome : WorkerOutcome) (msg : String) (tStart tEnd : Nat)
    (hres : outcome.result = .error msg)
    (hex : (getJob st.jobs jobId).isSome) :
    ∃ j', getJob (processVideoHandler st jobId videoId outcome tStart tEnd).1.jobs jobId
        = some j' ∧
      j'.status = .failed ∧ j'.error = some msg ∧ j'.completedAt = some tEnd ∧
      (⟨.job_failed, .jobFailed (some j') msg⟩ : Event)
        ∈ (processVideoHandler st jobId videoId outcome tStart tEnd).1.events ∧
      (∀ v ∈ (processVideoHandler st jobId videoId outcome tStart tEnd).1.videos,
        v.id = videoId → v.status = "failed") ∧
      (processVideoHandler st jobId videoId outcome tStart tEnd).2 = .error msg := by
  have hsome1 : (getJob (markProcessing st jobId tStart).jobs jobId).isSome := by
    rw [markProcessing]
    simp only [getJob_updateJob]
    simpa using hex
  have hsome2 : (getJob ((outcome.progressCalls.foldl (queueProgressCallback jobId)
      (markProcessing st jobId tStart)).jobs) jobId).isSome :=
    getJob_foldl_callbacks _ _ _ hsome1
  obtain ⟨j2, hj2⟩ := Option.isSome_iff_exists.mp hsome2
  refine ⟨applyUpdate j2
    { status := some .failed, error := some (some msg), completedAt := some (some tEnd) },
    ?_, rfl, rfl, rfl, ?_, ?_, ?_⟩
  · simp only [processVideoHandler, hres, finishProcessVideo, getJob_updateJob, hj2,
      Option.map_some']
  · simp only [processVideoHandler, hres, finishProcessVideo, getJob_updateJob, hj2,
      Option.map_some']
    exact List.mem_append_right _ (List.mem_singleton.mpr rfl)
  · simp only [processVideoHandler, hres, finishProcessVideo]
    exact updateVideo_status
  · simp only [processVideoHandler, hres, finishProcessVideo]

/-- Claim C4 witness: a concrete queued job whose processor throws
"boom". -/
theorem worker_failure_spec_witness :
    (WorkerOutcome.mk [] (.error "boom")).result = Except.error "boom" ∧
    (getJob [(⟨"j5", "v5", "scene_detection", .queued, 0, none, none, none, none, 1⟩ : Job)]
      "j5").isSome = true ∧
    (∃ j', getJob (processVideoHandler
        ⟨[⟨"j5", "v5", "scene_detection", .queued, 0, none, none, none, none, 1⟩],
         [⟨"v5", "uploaded", 0⟩], []⟩
        "j5" "v5" ⟨[], .error "boom"⟩ 2 3).1.jobs "j5" = some j' ∧
      j'.status = .failed ∧ j'.error = some "boom" ∧ j'.completedAt = some 3 ∧
      (⟨.job_failed, .jobFailed (some j') "boom"⟩ : Event)
        ∈ (processVideoHandler
            ⟨[⟨"j5", "v5", "scene_detection", .queued, 0, none, none, none, none, 1⟩],
             [⟨"v5", "uploaded", 0⟩], []⟩
            "j5" "v5" ⟨[], .error "boom"⟩ 2 3).1.events ∧
      (∀ v ∈ (processVideoHandler
            ⟨[⟨"j5", "v5", "scene_detection", .queued, 0, none, none, none, none, 1⟩],
             [⟨"v5", "uploaded", 0⟩], []⟩
            "j5" "v5" ⟨[], .error "boom"⟩ 2 3).1.videos,
        v.id = "v5" → v.status = "failed") ∧
      (processVideoHandler
          ⟨[⟨"j5", "v5", "scene_detection", .queued, 0, none, none, none, none, 1⟩],
           [⟨"v5", "uploaded", 0⟩], []⟩
          "j5" "v5" ⟨[], .error "boom"⟩ 2 3).2 = .error "boom") :=
  ⟨rfl, rfl,
   worker_failure_spec
    ⟨[⟨"j5", "v5", "scene_detection", .queued, 0, none, none, none, none, 1⟩],
     [⟨"v5", "uploaded", 0⟩], []⟩
    "j5" "v5" ⟨[], .error "boom"⟩ "boom" 2 3 rfl rfl⟩

/-! ## Claim C5: worker success path -/

/-- Claim C5: the process handler first marks the job processing with
startedAt set and progress 0 (the `markProcessing` step the handler is
defined to perform before running the processor), and when the Worker
Processor returns a result it persists status completed with progress
100, completedAt set and `data` holding the result, broadcasts a
`job_completed` event with the re-read row, sets the owning video's
status to completed, and returns the result. -/
theorem worker_success_spec (st : ServerState) (jobId videoId : String)
    (outcome : WorkerOutcome) (res : String) (tStart tEnd : Nat)
    (hres : outcome.result = .ok res)
    (hex : (getJob st.jobs jobId).isSome) :
    (∃ jp, getJob (markProcessing st jobId tStart).jobs jobId = some jp ∧
      jp.status = .processing ∧ jp.startedAt = some tStart ∧ jp.progress = 0) ∧
    (∃ j', getJob (processVideoHandler st jobId videoId outcome tStart tEnd).1.jobs jobId
        = some j' ∧
      j'.status = .completed ∧ j'.progress = 100 ∧ j'.completedAt = some tEnd ∧
      j'.data = some res ∧
      (⟨.job_completed, .jobCompleted (some j') res⟩ : Event)
        ∈ (processVideoHandler st jobId videoId outcome tStart tEnd).1.events) ∧
    (∀ v ∈ (processVideoHandler st jobId videoId outcome tStart tEnd).1.videos,
      v.id = videoId → v.status = "completed") ∧
    (processVideoHandler st jobId videoId outcome tStart tEnd).2 = .ok res := by
  obtain ⟨j0, hj0⟩ := Option.isSome_iff_exists.mp hex
  have hsome1 : (getJob (markProcessing st jobId tStart).jobs jobId).isSome := by
    rw [markProcessing]
    simp only [getJob_updateJob]
    simp [hj0]
  have hsome2 : (getJob ((outcome.progressCalls.foldl (queueProgressCallback jobId)
      (markProcessing st jobId tStart)).jobs) jobId).isSome :=
    getJob_foldl_callbacks _ _ _ hsome1
  obtain ⟨j2, hj2⟩ := Option.isSome_iff_exists.mp hsome2
  refine ⟨⟨applyUpdate j0
      { status := some .processing, startedAt := some (some tStart), progress := some 0 },
      ?_, rfl, rfl, rfl⟩,
    ⟨applyUpdate j2
      { status := some .completed, progress := some 100,
        completedAt := some (some tEnd), data := some (some res) },
      ?_, rfl, rfl, rfl, rfl, ?_⟩, ?_, ?_⟩
  · rw [markProcessing]
    simp only [getJob_updateJob, hj0, Option.map_some']
  · simp only [processVideoHandler, hres, finishProcessVideo, getJob_updateJob, hj2,
      Option.map_some']
  · simp only [processVideoHandler, hres, finishProcessVideo, getJob_updateJob, hj2,
      Option.map_some']
    exact List.mem_append_right _ (List.mem_singleton.mpr rfl)
  · simp only [processVideoHandler, hres, finishProcessVideo]
    exact updateVideo_status
  · simp only [processVideoHandler, hres, finishProcessVideo]

/-- Claim C5 witness: a concrete queued scene_detection job whose
processor returns a result after the simulated progress calls. -/
theorem worker_success_spec_witness :
    (WorkerOutcome.mk sceneDetectionProgress (.ok "scenes")).result = Except.ok "scenes" ∧
    (getJob [(⟨"j6", "v6", "scene_detection", .queued, 0, none, none, none, none, 1⟩ : Job)]
      "j6").isSome = true ∧
    ((∃ jp, getJob (markProcessing
        ⟨[⟨"j6", "v6", "scene_detection", .queued, 0, none, none, none, none, 1⟩],
         [⟨"v6", "uploaded", 0⟩], []⟩ "j6" 2).jobs "j6" = some jp ∧
      jp.status = .processing ∧ jp.startedAt = some 2 ∧ jp.progress = 0) ∧
    (∃ j', getJob (processVideoHandler
        ⟨[⟨"j6", "v6", "scene_detection", .queued, 0, none, none, none, none, 1⟩],
         [⟨"v6", "uploaded", 0⟩], []⟩
        "j6" "v6" ⟨sceneDetectionProgress, .ok "scenes"⟩ 2 25).1.jobs "j6" = some j' ∧
      j'.status = .completed ∧ j'.progress = 100 ∧ j'.completedAt = some 25 ∧
      j'.data = some "scenes" ∧
      (⟨.job_completed, .jobCompleted (some j') "scenes"⟩ : Event)
        ∈ (processVideoHandler
            ⟨[⟨"j6", "v6", "scene_detection", .queued, 0, none, none, none, none, 1⟩],
             [⟨"v6", "uploaded", 0⟩], []⟩
            "j6" "v6" ⟨sceneDetectionProgress, .ok "scenes"⟩ 2 25).1.events) ∧
    (∀ v ∈ (processVideoHandler
          ⟨[⟨"j6", "v6", "scene_detection", .queued, 0, none, none, none, none, 1⟩],
           [⟨"v6", "uploaded", 0⟩], []⟩
          "j6" "v6" ⟨sceneDetectionProgress, .ok "scenes"⟩ 2 25).1.videos,
      v.id = "v6" → v.status = "completed") ∧
    (processVideoHandler
        ⟨[⟨"j6", "v6", "scene_detection", .queued, 0, none, none, none, none, 1⟩],
         [⟨"v6", "uploaded", 0⟩], []⟩
        "j6" "v6" ⟨sceneDetectionProgress, .ok "scenes"⟩ 2 25).2 = .ok "scenes") :=
  ⟨rfl, rfl,
   worker_success_spec
    ⟨[⟨"j6", "v6", "scene_detection", .queued, 0, none, none, none, none, 1⟩],
     [⟨"v6", "uploaded", 0⟩], []⟩
    "j6" "v6" ⟨sceneDetectionProgress, .ok "scenes"⟩ "scenes" 2 25 rfl rfl⟩

/-! ## Claim C6: progress range and monotonicity -/

/-- Claim C6 counterexample: the progress route performs no clamping — a
report of 150 for a processing job is persisted as 150, outside [0,100],
so the claimed clamp into [0,100] (and the always-in-range invariant) is
false. -/
theorem progress_value_not_clamped :
    (getJob (progressHandler
        [⟨"j1", "v1", "scene_detection", .processing, 10, none, none, some 2, none, 1⟩]
        "j1" ⟨150, none, none⟩ 7).1 "j1").map Job.progress = some 150 ∧
    (100 : Int) < 150 := by
  refine ⟨rfl, by decide⟩

/-- Claim C6 (amended): reportProgress persists exactly the supplied
value, with no clamping into [0,100]; the range discipline comes only
from the callers: each simulated Worker Processor invokes its progress
callback with a non-decreasing sequence of integers within [0,100]
ending at 100 (scene detection 10 steps, preview generation 8 steps,
thumbnail extraction 5 steps). -/
theorem progress_range_spec (jobs : List Job) (id : String)
    (b : ProgressBody) (now : Nat) :
    (∀ j, getJob jobs id = some j →
      (applyUpdate j (progressUpdate b now)).progress = b.progress ∧
      getJob (progressHandler jobs id b now).1 id
        = some (applyUpdate j (progressUpdate b now))) ∧
    (nonDecreasingB sceneDetectionProgress = true ∧
      (∀ p ∈ sceneDetectionProgress, 0 ≤ p ∧ p ≤ 100) ∧
      sceneDetectionProgress.getLast? = some 100) ∧
    (nonDecreasingB previewGenerationProgress = true ∧
      (∀ p ∈ previewGenerationProgress, 0 ≤ p ∧ p ≤ 100) ∧
      previewGenerationProgress.getLast? = some 100) ∧
    (nonDecreasingB thumbnailExtractionProgress = true ∧
      (∀ p ∈ thumbnailExtractionProgress, 0 ≤ p ∧ p ≤ 100) ∧
      thumbnailExtractionProgress.getLast? = some 100) := by
  refine ⟨?_, by decide, by decide, by decide⟩
  intro j h
  have h2 : (updateJob jobs id (progressUpdate b now)).2
      = some (applyUpdate j (progressUpdate b now)) := by
    simp [updateJob, h]
  exact ⟨by simp [applyUpdate, progressUpdate],
    by simp [progressHandler, h2, getJob_updateJob, h]⟩

/-- Claim C6 witness: the amended theorem instantiated on a processing
job receiving a report of 55. -/
theorem progress_range_spec_witness :
    getJob [(⟨"j7", "v7", "scene_detection", .processing, 10, none, none, some 2, none, 1⟩ : Job)] "j7"
      = some ⟨"j7", "v7", "scene_detection", .processing, 10, none, none, some 2, none, 1⟩ ∧
    (applyUpdate
        ⟨"j7", "v7", "scene_detection", .processing, 10, none, none, some 2, none, 1⟩
        (progressUpdate ⟨55, none, none⟩ 6)).progress = 55 :=
  ⟨by decide,
   ((progress_range_spec
      [⟨"j7", "v7", "scene_detection", .processing, 10, none, none, some 2, none, 1⟩]
      "j7" ⟨55, none, none⟩ 6).1
      ⟨"j7", "v7", "scene_detection", .processing, 10, none, none, some 2, none, 1⟩
      (by decide)).1⟩

/-! ## Claim C7: broadcast delivery -/

/-- Claim C7: one broadcast call sends the JSON-serialized message to
exactly the clients registered and in the OPEN state at emission time
(the send list contains (cid, m) precisely when a registered client has
that id, is open, and m is the serialization of the event), and a client
in a non-open state anywhere in the registry contributes nothing: the
sends are the same as with that client absent, so it never prevents
delivery to the rest. -/
theorem broadcast_delivery_spec (e : Event) (clients cs1 cs2 : List WSClient)
    (c : WSClient) (cid m : String) :
    ((cid, m) ∈ broadcast clients e ↔
      ∃ w ∈ clients, w.id = cid ∧ w.readyState = WS_OPEN ∧ m = serializeEvent e) ∧
    (c.readyState ≠ WS_OPEN →
      broadcast (cs1 ++ c :: cs2) e = broadcast (cs1 ++ cs2) e) := by
  constructor
  · constructor
    · intro hmem
      rcases List.mem_filterMap.mp hmem with ⟨w, hw, hf⟩
      by_cases hopen : w.readyState = WS_OPEN
      · rw [if_pos hopen] at hf
        refine ⟨w, hw, ?_, hopen, ?_⟩
        · exact congrArg Prod.fst (Option.some.inj hf)
        · exact (congrArg Prod.snd (Option.some.inj hf)).symm
      · rw [if_neg hopen] at hf
        exact absurd hf (by simp)
    · rintro ⟨w, hw, hid, hopen, hm⟩
      exact List.mem_filterMap.mpr ⟨w, hw, by rw [if_pos hopen, hid, hm]⟩
  · intro h
    simp [broadcast, broadcastSends, List.filterMap_append, List.filterMap_cons, h]

/-- Claim C7 witness: a closed client between two open ones does not
affect the sends. -/
theorem broadcast_delivery_spec_witness :
    (⟨"c", 0⟩ : WSClient).readyState ≠ WS_OPEN ∧
    broadcast [⟨"a", 1⟩, ⟨"c", 0⟩, ⟨"b", 1⟩] ⟨.job_progress, .jobProgress none 5⟩
      = broadcast [⟨"a", 1⟩, ⟨"b", 1⟩] ⟨.job_progress, .jobProgress none 5⟩ :=
  ⟨by decide,
   (broadcast_delivery_spec ⟨.job_progress, .jobProgress none 5⟩ []
      [⟨"a", 1⟩] [⟨"b", 1⟩] ⟨"c", 0⟩ "x" "y").2 (by decide)⟩

/-! ## Claim C8: client reconnect backoff -/

theorem wsRun_closes (n : Nat) : ∀ (a : Nat) (sch : List Nat),
    wsRun ⟨a, sch⟩ (List.replicate n .onclose)
      = ⟨a + n, sch ++ (List.range n).map (fun i => reconnectDelay (a + i))⟩ := by
  induction n with
  | zero => intro a sch; simp [wsRun]
  | succ k ih =>
    intro a sch
    rw [List.replicate_succ]
    have hstep : wsRun ⟨a, sch⟩ (WSEvent.onclose :: List.replicate k .onclose)
        = wsRun ⟨a + 1, sch ++ [reconnectDelay a]⟩ (List.replicate k .onclose) := rfl
    rw [hstep, ih (a + 1) (sch ++ [reconnectDelay a])]
    refine congrArg₂ WSClientState.mk (by omega) ?_
    rw [List.range_succ_eq_map, List.map_cons, List.map_map]
    rw [List.append_assoc]
    refine congrArg (sch ++ ·) ?_
    rw [List.singleton_append]
    refine congrArg₂ List.cons (by rw [Nat.add_zero]) ?_
    exact List.map_congr_left (fun i _ => by simp [Function.comp]; congr 1; omega)

/-- Claim C8: the n-th consecutive reconnect attempt (counting from 0) is
scheduled after min(1000·2^n, 30000) milliseconds — starting from a
reset counter, n consecutive disconnects schedule exactly the delays
reconnectDelay 0, …, reconnectDelay (n−1) — and a successful reconnection
(onopen) resets the attempt counter to 0, so the next disconnect is
scheduled after the base delay of 1000 ms. -/
theorem reconnect_backoff_spec (n : Nat) (s : WSClientState) (sch : List Nat) :
    reconnectDelay n = min (1000 * 2 ^ n) 30000 ∧
    (wsRun ⟨0, sch⟩ (List.replicate n .onclose)).scheduled
      = sch ++ (List.range n).map reconnectDelay ∧
    (wsStep s .onopen).attempts = 0 ∧
    (wsRun s [.onopen, .onclose]).scheduled = s.scheduled ++ [1000] := by
  refine ⟨rfl, ?_, rfl, rfl⟩
  rw [wsRun_closes n 0 sch]
  simp

/-! ## Claim C9: getWorkerStats -/

theorem workersOf_get : ∀ (l : List QueueJob) (i k : Nat)
    (hk : k < l.length) (hk2 : k < (workersOf i l).length),
    (workersOf i l).get ⟨k, hk2⟩ =
      ⟨"worker-" ++ toString (i + k + 1), "processing",
       (l.get ⟨k, hk⟩).id, (l.get ⟨k, hk⟩).progress⟩ := by
  intro l
  induction l with
  | nil => intro i k hk _; exact absurd hk (by simp)
  | cons j r ih =>
    intro i k hk hk2
    cases k with
    | zero => simp [workersOf]
    | succ k0 =>
      have hk' : k0 < r.length := by simpa using hk
      have hk2' : k0 < (workersOf (i + 1) r).length := by
        simpa [workersOf] using hk2
      have := ih (i + 1) k0 hk' hk2'
      simp only [workersOf, List.get_cons_succ]
      rw [this]
      have harith : i + 1 + k0 + 1 = i + (k0 + 1) + 1 := by omega
      rw [harith]

/-- Claim C9: getWorkerStats never propagates a failure: when every queue
query succeeds it returns the four counts together with one worker entry
per active job — id worker-(index+1), status "processing", the job's id
and its current progress — and whenever any of the five queries fails it
returns the zeroed snapshot \x7bwaiting 0, active 0, completed 0, failed 0,
workers []\x7d. -/
theorem getWorkerStats_spec (q : QueueSnapshotQueries) (w a c f : Nat)
    (js : List QueueJob) (e : String) :
    (q.waiting = .ok w → q.active = .ok a → q.completed = .ok c →
      q.failed = .ok f → q.activeJobs = .ok js →
      getWorkerStats q = ⟨w, a, c, f, workersOf 0 js⟩) ∧
    ((q.waiting = .error e ∨ q.active = .error e ∨ q.completed = .error e ∨
      q.failed = .error e ∨ q.activeJobs = .error e) →
      getWorkerStats q = zeroWorkerStats) ∧
    (∀ l i, (workersOf i l).length = l.length) ∧
    (∀ (l : List QueueJob) (k : Nat) (hk : k < l.length)
      (hk2 : k < (workersOf 0 l).length),
      (workersOf 0 l).get ⟨k, hk2⟩ =
        ⟨"worker-" ++ toString (k + 1), "processing",
         (l.get ⟨k, hk⟩).id, (l.get ⟨k, hk⟩).progress⟩) := by
  obtain ⟨qw, qa, qc, qf, qj⟩ := q
  refine ⟨?_, ?_, ?_, ?_⟩
  · intro h1 h2 h3 h4 h5
    simp only at h1 h2 h3 h4 h5
    subst h1; subst h2; subst h3; subst h4; subst h5
    rfl
  · intro h
    simp only at h
    rcases h with h | h | h | h | h
    · subst h; rfl
    · subst h; cases qw <;> rfl
    · subst h; cases qw <;> cases qa <;> rfl
    · subst h; cases qw <;> cases qa <;> cases qc <;> rfl
    · subst h; cases qw <;> cases qa <;> cases qc <;> cases qf <;> rfl
  · intro l i
    induction l generalizing i with
    | nil => rfl
    | cons j r ih => simp [workersOf, ih]
  · intro l k hk hk2
    have := workersOf_get l 0 k hk hk2
    rw [this]
    simp

/-- Claim C9 witness: one failing query yields the zeroed snapshot; all
queries succeeding yields counts plus one entry per active job. -/
theorem getWorkerStats_spec_witness :
    ((QueueSnapshotQueries.mk (.error "redis down") (.ok 1) (.ok 2) (.ok 3)
        (.ok [])).waiting = .error "redis down" ∨
      (QueueSnapshotQueries.mk (.error "redis down") (.ok 1) (.ok 2) (.ok 3)
        (.ok [])).active = .error "redis down" ∨
      (QueueSnapshotQueries.mk (.error "redis down") (.ok 1) (.ok 2) (.ok 3)
        (.ok [])).completed = .error "redis down" ∨
      (QueueSnapshotQueries.mk (.error "redis down") (.ok 1) (.ok 2) (.ok 3)
        (.ok [])).failed = .error "redis down" ∨
      (QueueSnapshotQueries.mk (.error "redis down") (.ok 1) (.ok 2) (.ok 3)
        (.ok [])).activeJobs = .error "redis down") ∧
    getWorkerStats (QueueSnapshotQueries.mk (.error "redis down") (.ok 1)
      (.ok 2) (.ok 3) (.ok [])) = zeroWorkerStats :=
  ⟨Or.inl rfl,
   (getWorkerStats_spec
      (QueueSnapshotQueries.mk (.error "redis down") (.ok 1) (.ok 2) (.ok 3) (.ok []))
      0 0 0 0 [] "redis down").2.1 (Or.inl rfl)⟩

/-! ## Claim C10: InMemoryQueue runs jobs serially in FIFO order -/

theorem finishMemJob_id (j : MemJob) : (finishMemJob j).id = j.id := by
  unfold finishMemJob
  cases j.outcome <;> rfl

theorem finishMemJob_status_ne_waiting (j : MemJob) :
    (finishMemJob j).status ≠ .waiting := by
  unfold finishMemJob
  cases j.outcome <;> simp

theorem finishMemJob_status_ne_processing (j : MemJob) :
    (finishMemJob j).status ≠ .processing := by
  unfold finishMemJob
  cases j.outcome <;> simp

theorem finishMemJob_setProcessing (j : MemJob) :
    finishMemJob { j with status := .processing } = finishMemJob j := by
  unfold finishMemJob
  cases h : j.outcome <;> simp only [h]

theorem find?_append_of_none {α : Type} (p : α → Bool) (l1 l2 : List α)
    (h : ∀ x ∈ l1, ¬ p x) : (l1 ++ l2).find? p = l2.find? p := by
  induction l1 with
  | nil => rfl
  | cons a t ih =>
    rw [List.cons_append, List.find?_cons_of_neg _ (h a (List.mem_cons_self a t))]
    exact ih (fun x hx => h x (List.mem_cons_of_mem a hx))

theorem step_outside (pre rest : List MemJob) (j : MemJob)
    (hpre : ∀ t ∈ pre, t.id ≠ j.id) (hrest : ∀ t ∈ rest, t.id ≠ j.id) :
    finishAt (setProcessing (pre ++ j :: rest) j.id) j.id
      = pre ++ finishMemJob j :: rest := by
  unfold finishAt setProcessing
  rw [List.map_map, List.map_append, List.map_cons]
  refine congrArg₂ (· ++ ·) ?_ (congrArg₂ (· :: ·) ?_ ?_)
  · refine (List.map_congr_left (fun t ht => ?_)).trans (List.map_id pre)
    simp only [Function.comp_apply]
    rw [if_neg (hpre t ht), if_neg (hpre t ht)]
    rfl
  · simp [finishMemJob_setProcessing]
  · refine (List.map_congr_left (fun t ht => ?_)).trans (List.map_id rest)
    simp only [Function.comp_apply]
    rw [if_neg (hrest t ht), if_neg (hrest t ht)]
    rfl

theorem runLoop_fifo : ∀ (js pre : List MemJob),
    (∀ t ∈ pre, t.status ≠ .waiting) →
    (∀ j ∈ js, j.status = .waiting) →
    ((pre ++ js).map (·.id)).Nodup →
    runLoop js.length (pre ++ js) = (pre ++ js.map finishMemJob, js.map (·.id)) := by
  intro js
  induction js with
  | nil =>
    intro pre _ _ _
    simp [runLoop]
  | cons j rest ih =>
    intro pre hpre hwait hnodup
    have hfind : findWaiting (pre ++ j :: rest) = some j := by
      unfold findWaiting
      rw [find?_append_of_none _ pre _ (fun t ht => by simp [hpre t ht])]
      exact List.find?_cons_of_pos _ (by simp [hwait j (List.mem_cons_self j rest)])
    have hids : ((pre.map (·.id)) ++ j.id :: rest.map (·.id)).Nodup := by
      simpa using hnodup
    obtain ⟨-, hcons, hdisj⟩ := List.nodup_append.mp hids
    have hpreid : ∀ t ∈ pre, t.id ≠ j.id := by
      intro t ht heq
      exact hdisj (List.mem_map_of_mem (·.id) ht) (heq ▸ List.mem_cons_self j.id _)
    have hrestid : ∀ t ∈ rest, t.id ≠ j.id := by
      intro t ht heq
      exact (List.nodup_cons.mp hcons).1 (heq ▸ List.mem_map_of_mem (·.id) ht)
    show runLoop (rest.length + 1) (pre ++ j :: rest) = _
    unfold runLoop
    rw [hfind]
    simp only
    rw [step_outside pre rest j hpreid hrestid]
    have hmid : pre ++ finishMemJob j :: rest = (pre ++ [finishMemJob j]) ++ rest := by
      simp
    rw [hmid]
    rw [ih (pre ++ [finishMemJob j])
      (by
        intro t ht
        rcases List.mem_append.mp ht with h | h
        · exact hpre t h
        · rw [List.mem_singleton.mp h]
          exact finishMemJob_status_ne_waiting j)
      (fun x hx => hwait x (List.mem_cons_of_mem j hx))
      (by
        have hsame : ((pre ++ [finishMemJob j]) ++ rest).map (·.id)
            = (pre ++ j :: rest).map (·.id) := by
          simp [finishMemJob_id]
        rw [hsame]
        exact hnodup)]
    simp

theorem length_le_one_of_nodup_const {l : List String} {x : String}
    (hn : l.Nodup) (hall : ∀ y ∈ l, y = x) : l.length ≤ 1 := by
  match l with
  | [] => simp
  | [_] => simp
  | a :: b :: t =>
    exfalso
    have ha := hall a (List.mem_cons_self a _)
    have hb := hall b (List.mem_cons_of_mem a (List.mem_cons_self b t))
    exact (List.nodup_cons.mp hn).1 (by rw [ha, ← hb]; exact List.mem_cons_self b t)

/-- Claim C10: the in-memory fallback queue runs jobs strictly serially
in FIFO submission order: the loop invariant (at most the job processJob
is currently awaiting is in 'processing') is preserved by every step, so
with unique job ids at most one job is processing at any time; running
the loop over a batch of waiting jobs settles them in exactly their
submission order, each ending completed with progress 100 and the
processor result, or failed with the caught error message, before the
next one starts. -/
theorem inmemory_queue_serial_spec (s : MemQueueState) (js : List MemJob) :
    (memWellFormed s → memWellFormed (memStep s)) ∧
    (memWellFormed s → (s.jobs.map (·.id)).Nodup → processingCount s.jobs ≤ 1) ∧
    ((∀ j ∈ js, j.status = .waiting) → (js.map (·.id)).Nodup →
      runLoop js.length js = (js.map finishMemJob, js.map (·.id))) ∧
    (∀ (j : MemJob) (r : String), j.outcome = .ok r →
      finishMemJob j = { j with status := .completed, progress := 100, result := some r }) ∧
    (∀ (j : MemJob) (e : String), j.outcome = .error e →
      finishMemJob j = { j with status := .failed, error := some e }) := by
  obtain ⟨jobs, phase⟩ := s
  refine ⟨?_, ?_, ?_, ?_, ?_⟩
  · intro hwf
    cases phase with
    | idle =>
      cases hf : findWaiting jobs with
      | none => simpa [memStep, hf] using hwf
      | some j =>
        simp only [memStep, hf, memWellFormed]
        intro t ht hproc
        rcases List.mem_map.mp ht with ⟨w, hw, rfl⟩
        by_cases h : w.id = j.id
        · rw [if_pos h]
          exact h
        · rw [if_neg h] at hproc ⊢
          exact absurd hproc (hwf w hw)
    | running id =>
      simp only [memStep, memWellFormed]
      intro t ht
      rcases List.mem_map.mp ht with ⟨w, hw, rfl⟩
      by_cases h : w.id = id
      · rw [if_pos h]
        exact finishMemJob_status_ne_processing w
      · rw [if_neg h]
        intro hproc
        exact absurd (hwf w hw hproc) h
  · intro hwf hnodup
    cases phase with
    | idle =>
      have : jobs.filter (fun j => decide (j.status = .processing)) = [] := by
        rw [List.filter_eq_nil_iff]
        intro a ha
        simpa using hwf a ha
      simp [processingCount, this]
    | running id =>
      have hall : ∀ y ∈ (jobs.filter
          (fun j => decide (j.status = .processing))).map (·.id), y = id := by
        intro y hy
        rcases List.mem_map.mp hy with ⟨w, hw, rfl⟩
        exact hwf w (List.mem_of_mem_filter hw) (by simpa using List.of_mem_filter hw)
      have hnd : ((jobs.filter (fun j => decide (j.status = .processing))).map (·.id)).Nodup :=
        ((List.filter_sublist jobs).map (·.id)).nodup hnodup
      have := length_le_one_of_nodup_const hnd hall
      simpa [processingCount] using this
  · intro hwait hnd
    have := runLoop_fifo js [] (by simp) hwait (by simpa using hnd)
    simpa using this
  · intro j r h
    unfold finishMemJob
    rw [h]
  · intro j e h
    unfold finishMemJob
    rw [h]

/-- Claim C10 witness: a batch of two waiting jobs is processed in
submission order, the first completing, the second failing. -/
theorem inmemory_queue_serial_spec_witness :
    (∀ j ∈ [(⟨"a", .ok "r1", .waiting, 0, none, none⟩ : MemJob),
            ⟨"b", .error "e1", .waiting, 0, none, none⟩], j.status = MemStatus.waiting) ∧
    (([(⟨"a", .ok "r1", .waiting, 0, none, none⟩ : MemJob),
       ⟨"b", .error "e1", .waiting, 0, none, none⟩].map (·.id)).Nodup) ∧
    runLoop 2 [⟨"a", .ok "r1", .waiting, 0, none, none⟩,
               ⟨"b", .error "e1", .waiting, 0, none, none⟩]
      = ([⟨"a", .ok "r1", .completed, 100, some "r1", none⟩,
          ⟨"b", .error "e1", .failed, 0, none, some "e1"⟩], ["a", "b"]) :=
  ⟨by decide, by decide,
   (inmemory_queue_serial_spec ⟨[], .idle⟩
      [⟨"a", .ok "r1", .waiting, 0, none, none⟩,
       ⟨"b", .error "e1", .waiting, 0, none, none⟩]).2.2.1
     (by decide) (by decide)⟩

end PSA
